import Mathlib

/-!
Verification development for the `pg_track_optimizer` PostgreSQL extension.

The development shallowly embeds the extension's core:
* `rstats.c` — the RStats running-statistics type (Welford's algorithm) with
  its text and binary I/O paths;
* `plan_error.c` — the plan-tree estimation-error walker;
* `pg_track_optimizer.c` — the shared fingerprint store (`store_data`),
  the capacity bound, the status report and the on-disk flush layout.

C `double` arithmetic is embedded as exact arithmetic: over `ℚ` for the
RStats/store component (whose operations are field operations and
comparisons only) and over `ℝ` for the plan walker (which uses `log` and
`sqrt`).  C `int64`/`int` counters become `ℤ`/`ℕ`.  Non-local error exits
(`ereport(ERROR)`) become `Except` results.
-/

namespace PgTrackOptimizer

/-- Error channels used by the embedded code: `invalidTextRepresentation`
models `ERRCODE_INVALID_TEXT_REPRESENTATION`, `dataCorrupted` models
`ERRCODE_DATA_CORRUPTED`. -/
inductive ErrKind where
  | invalidTextRepresentation : ErrKind
  | dataCorrupted : ErrKind
deriving DecidableEq, Repr

/-- The `RStats` struct of `rstats.h`: `{count:int64, mean, m2, min, max : double}`. -/
structure RStats where
  count : ℤ
  mean : ℚ
  m2 : ℚ
  min : ℚ
  max : ℚ
deriving DecidableEq, Repr

/-- `rstats_set_empty` (rstats.c): the canonical empty state, all fields zero. -/
def rstats_set_empty : RStats := ⟨0, 0, 0, 0, 0⟩

/-- `rstats_init_internal` (rstats.c): statistics of a single value. -/
def rstats_init_internal (value : ℚ) : RStats := ⟨1, value, 0, value, value⟩

/-- `rstats_is_empty` (rstats.c): `count > 0` means non-empty; `count ≤ 0`
with any non-zero field is reported as data corruption, otherwise empty. -/
def rstats_is_empty (r : RStats) : Except ErrKind Bool :=
  if 0 < r.count then .ok false
  else if r.mean ≠ 0 ∨ r.m2 ≠ 0 ∨ r.min ≠ 0 ∨ r.max ≠ 0 then .error .dataCorrupted
  else .ok true

/-- The Welford update step of `rstats_add_value` (rstats.c):
`n' = n+1; δ = x−mean; mean += δ/n'; δ2 = x−mean; m2 += δ·δ2` with the
extrema updated by comparison. -/
def rstats_welford (r : RStats) (value : ℚ) : RStats :=
  let new_count := r.count + 1
  let delta := value - r.mean
  let mean := r.mean + delta / (new_count : ℚ)
  let delta2 := value - mean
  ⟨new_count, mean, r.m2 + delta * delta2,
   if value < r.min then value else r.min,
   if r.max < value then value else r.max⟩

/-- `rstats_add_value` (rstats.c): fold one value into the statistics.
An empty object is initialized from the value, otherwise one Welford step
is applied. -/
def rstats_add_value (r : RStats) (value : ℚ) : Except ErrKind RStats := do
  let empty ← rstats_is_empty r
  if empty then
    return rstats_init_internal value
  else
    return rstats_welford r value

/-- The `variance` branch of `rstats_get_field` / `rstats_out` (rstats.c):
`m2/(count-1)` for `count > 1`, else `0`. -/
def rstats_variance (r : RStats) : ℚ :=
  if 1 < r.count then r.m2 / ((r.count - 1 : ℤ) : ℚ) else 0

/-- The parsed fields of the textual form
`(count:N,mean:M,min:MIN,max:MAX,variance:V)`.  The embedding works on the
five parsed numbers; the decimal rendering itself is abstracted away. -/
structure RStatsText where
  count : ℤ
  mean : ℚ
  min : ℚ
  max : ℚ
  variance : ℚ
deriving DecidableEq, Repr

/-- `rstats_in` (rstats.c): validate the parsed fields and rebuild the
internal form, reconstructing `m2 = variance·(count−1)` for `count > 1`. -/
def rstats_in (t : RStatsText) : Except ErrKind RStats :=
  if t.count < 0 then .error .invalidTextRepresentation
  else if t.variance < 0 then .error .invalidTextRepresentation
  else if 0 < t.count ∧ t.max < t.min then .error .invalidTextRepresentation
  else if t.count = 0 ∧ (t.mean ≠ 0 ∨ t.min ≠ 0 ∨ t.max ≠ 0 ∨ t.variance ≠ 0) then
    .error .invalidTextRepresentation
  else
    .ok ⟨t.count, t.mean,
         if 1 < t.count then t.variance * ((t.count - 1 : ℤ) : ℚ) else 0,
         t.min, t.max⟩

/-- `rstats_out` (rstats.c): emit count, mean, min, max and the derived
variance. -/
def rstats_out (r : RStats) : RStatsText :=
  ⟨r.count, r.mean, r.min, r.max, rstats_variance r⟩

/-- The field sequence of the binary wire form: count, mean, m2, min, max. -/
structure RStatsBinary where
  count : ℤ
  mean : ℚ
  m2 : ℚ
  min : ℚ
  max : ℚ
deriving DecidableEq, Repr

/-- `rstats_send` (rstats.c): serialize the five fields in declared order,
erroring on a non-canonical empty state. -/
def rstats_send (r : RStats) : Except ErrKind RStatsBinary :=
  if r.count = 0 ∧ (r.mean ≠ 0 ∨ r.m2 ≠ 0 ∨ r.min ≠ 0 ∨ r.max ≠ 0) then
    .error .dataCorrupted
  else
    .ok ⟨r.count, r.mean, r.m2, r.min, r.max⟩

/-- `rstats_recv` (rstats.c): read the five fields; the only validation is
that `count = 0` forces all other fields to be zero. -/
def rstats_recv (b : RStatsBinary) : Except ErrKind RStats :=
  if b.count = 0 ∧ (b.mean ≠ 0 ∨ b.m2 ≠ 0 ∨ b.min ≠ 0 ∨ b.max ≠ 0) then
    .error .dataCorrupted
  else
    .ok ⟨b.count, b.mean, b.m2, b.min, b.max⟩

/-- Folding a whole list of values, starting from the canonical empty state
(the lifecycle described for cumulative statistics). -/
def rstats_fold (values : List ℚ) : Except ErrKind RStats :=
  values.foldlM rstats_add_value rstats_set_empty

/-- Structural well-formedness of an in-memory `RStats`: non-negative count
and canonical zeros when empty.  This is exactly the state in which
`rstats_is_empty` (and hence `rstats_add_value`) cannot fail. -/
def RStatsWF (r : RStats) : Prop :=
  0 ≤ r.count ∧ (r.count = 0 → r.mean = 0 ∧ r.m2 = 0 ∧ r.min = 0 ∧ r.max = 0)

instance (r : RStats) : Decidable (RStatsWF r) := by
  unfold RStatsWF; infer_instance

theorem rstats_add_value_eq {r : RStats} (h : RStatsWF r) (v : ℚ) :
    rstats_add_value r v =
      .ok (if r.count = 0 then rstats_init_internal v else rstats_welford r v) := by
  obtain ⟨hc, hz⟩ := h
  rcases lt_or_eq_of_le hc with hpos | hzero
  · have hemp : rstats_is_empty r = .ok false := by
      rw [rstats_is_empty, if_pos hpos]
    rw [rstats_add_value, hemp, if_neg (by omega)]
    rfl
  · obtain ⟨h1, h2, h3, h4⟩ := hz hzero.symm
    have hemp : rstats_is_empty r = .ok true := by
      rw [rstats_is_empty, if_neg (by omega), if_neg (by simp [h1, h2, h3, h4])]
    rw [rstats_add_value, hemp, if_pos hzero.symm]
    rfl

theorem rstats_welford_count (r : RStats) (v : ℚ) :
    (rstats_welford r v).count = r.count + 1 := rfl

theorem rstats_welford_wf {r : RStats} (h : 0 ≤ r.count) (v : ℚ) :
    RStatsWF (rstats_welford r v) := by
  refine ⟨by simp only [rstats_welford]; omega, fun habs => absurd habs (by simp only [rstats_welford]; omega)⟩

theorem rstats_init_internal_wf (v : ℚ) : RStatsWF (rstats_init_internal v) := by
  exact ⟨by norm_num [rstats_init_internal], by norm_num [rstats_init_internal]⟩

theorem rstats_add_value_ok {r : RStats} (h : RStatsWF r) (v : ℚ) :
    ∃ r', rstats_add_value r v = .ok r' ∧ RStatsWF r' ∧ r'.count = r.count + 1 := by
  refine ⟨_, rstats_add_value_eq h v, ?_, ?_⟩
  · split
    · exact rstats_init_internal_wf v
    · exact rstats_welford_wf h.1 v
  · split
    · next hzero => simp [rstats_init_internal, hzero]
    · exact rstats_welford_count r v

/-! ## The shared fingerprint store (`pg_track_optimizer.c`) -/

/-- `DSMOptimizerTrackerKey`: `(dbOid : Oid, queryId : uint64)`. -/
structure TrackerKey where
  dbOid : ℕ
  queryId : ℕ
deriving DecidableEq, Repr

/-- `DSMOptimizerTrackerEntry`: per-execution snapshots, eleven cumulative
`RStats`, the execution counter and the shared-arena handle of the query
text (`query_ptr`, a `dsa_pointer` modelled as a natural number, `0` being
the invalid pointer). -/
structure TrackerEntry where
  key : TrackerKey
  evaluated_nodes : ℤ
  plan_nodes : ℤ
  avg_error : RStats
  rms_error : RStats
  twa_error : RStats
  wca_error : RStats
  blks_accessed : RStats
  local_blks : RStats
  exec_time : RStats
  f_join_filter : RStats
  f_scan_filter : RStats
  f_worst_splan : RStats
  njoins : RStats
  nexecs : ℤ
  query_ptr : ℕ
deriving DecidableEq, Repr

/-- The per-execution values `store_data` reads from the
`PlanEstimatorContext` filled by `plan_error` (`plan_error.h`). -/
structure ExecMetrics where
  avg_error : ℚ
  rms_error : ℚ
  twa_error : ℚ
  wca_error : ℚ
  blks_accessed : ℤ
  local_blks : ℤ
  f_join_filter : ℚ
  f_scan_filter : ℚ
  f_worst_splan : ℚ
  njoins : ℤ
  nnodes : ℤ
  counter : ℤ
  totaltime : ℚ
deriving DecidableEq, Repr

/-- The shared region state observable by `store_data`: the hash table
(as a list of entries with pairwise distinct keys), the atomic
`htab_counter` and `need_syncing` flags of `TODSMRegistry`, and the next
fresh shared-arena handle (`dsa_allocate0` returns valid, hence non-zero,
pointers). -/
structure Store where
  entries : List TrackerEntry
  htab_counter : ℕ
  need_syncing : Bool
  arena_next : ℕ
deriving DecidableEq, Repr

/-- The empty store right after `to_init_shmem`: empty table, both atomics
zero. -/
def Store.init : Store := ⟨[], 0, false, 1⟩

instance {ε α : Type} [DecidableEq ε] [DecidableEq α] :
    DecidableEq (Except ε α) := fun a b =>
  match a, b with
  | .ok x, .ok y =>
      match decEq x y with
      | .isTrue h => .isTrue (h ▸ rfl)
      | .isFalse h => .isFalse (fun hh => h (Except.ok.inj hh))
  | .error x, .error y =>
      match decEq x y with
      | .isTrue h => .isTrue (h ▸ rfl)
      | .isFalse h => .isFalse (fun hh => h (Except.error.inj hh))
  | .ok _, .error _ => .isFalse (fun hh => Except.noConfusion hh)
  | .error _, .ok _ => .isFalse (fun hh => Except.noConfusion hh)

/-- An execution whose metrics are all zero (e.g. a trivial plan whose
error scalars all evaluated to zero); used as a concrete Upsert payload. -/
def zero_metrics : ExecMetrics := ⟨0, 0, 0, 0, 0, 0, 0, 0, 0, 0, 0, 0, 0⟩

/-- The entry produced by Upserting `zero_metrics` for a fresh key: every
statistic holds the single value `0`, one execution tracked, text at the
given arena handle. -/
def zero_entry_at (key : TrackerKey) (ptr : ℕ) : TrackerEntry :=
  ⟨key, 0, 0, rstats_init_internal 0, rstats_init_internal 0,
   rstats_init_internal 0, rstats_init_internal 0, rstats_init_internal 0,
   rstats_init_internal 0, rstats_init_internal 0, rstats_init_internal 0,
   rstats_init_internal 0, rstats_init_internal 0, rstats_init_internal 0,
   1, ptr⟩

/-- `sizeof(DSMOptimizerTrackerEntry)`: 16 (key, with padding) + 2·4
(snapshots) + 11·40 (RStats) + 8 (`nexecs`) + 8 (`query_ptr`) = 480 bytes. -/
def ENTRY_SIZE : ℕ := 480

/-- `hashtable_elements_max` (pg_track_optimizer.c): `hash_mem` KB divided
by the entry size. -/
def hashtable_elements_max (hash_mem : ℕ) : ℕ :=
  hash_mem * 1024 / ENTRY_SIZE

/-- `UINT32_MAX`. -/
def UINT32_MAX : ℕ := 4294967295

/-- The guarded fold used for the four error metrics in `store_data`:
`if (ctx->xxx_error >= 0.) rstats_add_value(&entry->xxx_error, ctx->xxx_error)`
— the value is folded only when non-negative, otherwise the statistic is
left untouched. -/
def rstats_add_if_nonneg (v : ℚ) (r : RStats) : Except ErrKind RStats :=
  if 0 ≤ v then rstats_add_value r v else pure r

/-- The accumulation step of `store_data` (pg_track_optimizer.c lines
394–471): overwrite the per-execution snapshots, fold the four error
metrics only when non-negative, fold the remaining metrics and the
execution time unconditionally, and increment `nexecs`. -/
def fold_metrics (ctx : ExecMetrics) (e : TrackerEntry) : Except ErrKind TrackerEntry := do
  let e := { e with evaluated_nodes := ctx.nnodes, plan_nodes := ctx.counter }
  let avg ← rstats_add_if_nonneg ctx.avg_error e.avg_error
  let rms ← rstats_add_if_nonneg ctx.rms_error e.rms_error
  let twa ← rstats_add_if_nonneg ctx.twa_error e.twa_error
  let wca ← rstats_add_if_nonneg ctx.wca_error e.wca_error
  let blks ← rstats_add_value e.blks_accessed (ctx.blks_accessed : ℚ)
  let locals ← rstats_add_value e.local_blks (ctx.local_blks : ℚ)
  let jf ← rstats_add_value e.f_join_filter ctx.f_join_filter
  let sf ← rstats_add_value e.f_scan_filter ctx.f_scan_filter
  let ws ← rstats_add_value e.f_worst_splan ctx.f_worst_splan
  let nj ← rstats_add_value e.njoins (ctx.njoins : ℚ)
  let et ← rstats_add_value e.exec_time ctx.totaltime
  return { e with avg_error := avg, rms_error := rms, twa_error := twa,
                  wca_error := wca, blks_accessed := blks, local_blks := locals,
                  f_join_filter := jf, f_scan_filter := sf, f_worst_splan := ws,
                  njoins := nj, exec_time := et, nexecs := e.nexecs + 1 }

/-- A fresh entry as `store_data` builds it in the `!found` branch: query
text allocated from the arena, every cumulative statistic canonically
empty, `nexecs = 0`. -/
def fresh_entry (key : TrackerKey) (query_ptr : ℕ) : TrackerEntry :=
  ⟨key, 0, 0, rstats_set_empty, rstats_set_empty, rstats_set_empty,
   rstats_set_empty, rstats_set_empty, rstats_set_empty, rstats_set_empty,
   rstats_set_empty, rstats_set_empty, rstats_set_empty, rstats_set_empty,
   0, query_ptr⟩

/-- The lookup half of `dshash_find_or_insert`: the entry with the given
key, when present. -/
def find_entry (key : TrackerKey) : List TrackerEntry → Option TrackerEntry
  | [] => none
  | e :: es => if e.key = key then some e else find_entry key es

/-- `store_data` (pg_track_optimizer.c): the Upsert operation.  Returns
the C function's boolean (whether the execution was stored) together with
the updated store.  `elems_max` is the value of `hashtable_elements_max()`,
`log_min_error` and `forced` the GUC settings consulted by the gating
check. -/
def store_data (elems_max : ℕ) (log_min_error : ℚ) (forced : Bool)
    (key : TrackerKey) (ctx : ExecMetrics) (s : Store) :
    Except ErrKind (Bool × Store) := do
  if ¬(log_min_error ≤ ctx.avg_error ∨ forced) then
    return (false, s)
  else if s.htab_counter = UINT32_MAX ∨ elems_max < s.htab_counter then
    return (false, s)
  else
    match find_entry key s.entries with
    | some e => do
        let e' ← fold_metrics ctx e
        return (true, { s with
          entries := s.entries.map (fun o => if o.key = key then e' else o) })
    | none => do
        let e' ← fold_metrics ctx (fresh_entry key s.arena_next)
        return (true, { s with
          entries := e' :: s.entries,
          htab_counter := s.htab_counter + 1,
          need_syncing := true,
          arena_next := s.arena_next + 1 })

/-- Running a sequence of Upserts, collecting each call's boolean result. -/
def run_upserts (elems_max : ℕ) (log_min_error : ℚ) (forced : Bool) :
    List (TrackerKey × ExecMetrics) → Store → Except ErrKind (List Bool × Store)
  | [], s => .ok ([], s)
  | (key, ctx) :: rest, s => do
      let (flag, s') ← store_data elems_max log_min_error forced key ctx s
      let (flags, s'') ← run_upserts elems_max log_min_error forced rest s'
      return (flag :: flags, s'')

/-- The `free_slots` column of `pg_track_optimizer_status`
(pg_track_optimizer.c): `entries_max - entries_count` computed in `uint32`
arithmetic, i.e. modulo `2^32`. -/
def status_free_slots (elems_max htab_counter : ℕ) : ℕ :=
  (elems_max + 2 ^ 32 - htab_counter % 2 ^ 32) % 2 ^ 32

/-! ## The on-disk flush format (`_flush_hash_table`) -/

/-- `DATA_FILE_HEADER` (pg_track_optimizer.c line 834): the magic constant
`12354678`. -/
def DATA_FILE_HEADER : ℕ := 12354678

/-- `DATA_FORMAT_VERSION` (pg_track_optimizer.c line 835). -/
def DATA_FORMAT_VERSION : ℕ := 20260118

/-- One element written to the statistics file: a `uint32`, a byte string,
or the raw bytes of one `DSMOptimizerTrackerEntry`. -/
inductive FileTok where
  | u32 : ℕ → FileTok
  | bytes : String → FileTok
  | entryRaw : TrackerEntry → FileTok
deriving DecidableEq, Repr

/-- The EOF marker entry of `_flush_hash_table`:
`memset(&eof_entry, 0, sizeof(...))` — key `(0,0)`, all fields zero. -/
def eof_entry : TrackerEntry := fresh_entry ⟨0, 0⟩ 0

/-- One serialized record of `_flush_hash_table`: the entry's in-memory
bytes, then the length of its query text, then the text itself. -/
def flush_record (e : TrackerEntry) (text : String) : List FileTok :=
  [.entryRaw e, .u32 text.length, .bytes text]

/-- `_flush_hash_table` (pg_track_optimizer.c): header, per-entry records,
EOF marker entry, record count, and a trailing checksum over every
preceding byte.  The CRC32C computation itself is abstracted as the
function argument `crc`, applied to everything before the checksum word. -/
def flush_file (crc : List FileTok → ℕ) (pg_version : String)
    (entries : List (TrackerEntry × String)) : List FileTok :=
  let body :=
    [.u32 DATA_FILE_HEADER, .u32 DATA_FORMAT_VERSION,
     .u32 pg_version.length, .bytes pg_version]
    ++ (entries.flatMap fun p => flush_record p.1 p.2)
    ++ [.entryRaw eof_entry, .u32 entries.length]
  body ++ [.u32 (crc body)]

/-- Modelled from the spec: «`Entry_raw` is the in-memory layout of a Store
Entry, with the query-text handle field written as zero (the text is
carried explicitly)».  This is the record layout §6 of the specification
claims for the file; it is compared against what `_flush_hash_table`
actually writes. -/
def entry_raw_spec (e : TrackerEntry) : TrackerEntry :=
  { e with query_ptr := 0 }

/-- Well-formedness of a live store entry: every cumulative statistic is a
structurally valid `RStats` and the execution counter is non-negative. -/
def EntryWF (e : TrackerEntry) : Prop :=
  RStatsWF e.avg_error ∧ RStatsWF e.rms_error ∧ RStatsWF e.twa_error ∧
  RStatsWF e.wca_error ∧ RStatsWF e.blks_accessed ∧ RStatsWF e.local_blks ∧
  RStatsWF e.exec_time ∧ RStatsWF e.f_join_filter ∧ RStatsWF e.f_scan_filter ∧
  RStatsWF e.f_worst_splan ∧ RStatsWF e.njoins ∧ 0 ≤ e.nexecs

instance (e : TrackerEntry) : Decidable (EntryWF e) := by
  unfold EntryWF; infer_instance

/-- The error-statistics counting invariant of a live entry: the count of
each of the four error running statistics is bounded by the number of
tracked executions. -/
def ErrCountsInv (e : TrackerEntry) : Prop :=
  e.avg_error.count ≤ e.nexecs ∧ e.rms_error.count ≤ e.nexecs ∧
  e.twa_error.count ≤ e.nexecs ∧ e.wca_error.count ≤ e.nexecs

instance (e : TrackerEntry) : Decidable (ErrCountsInv e) := by
  unfold ErrCountsInv; infer_instance

/-- The store invariant maintained by `store_data`: every entry is
well-formed, and the atomic counter equals the number of live entries and
stays within one of the capacity bound (the guard compares with `>`, so
one insertion beyond `elems_max` is still admitted). -/
def StoreInv (elems_max : ℕ) (s : Store) : Prop :=
  (∀ e ∈ s.entries, EntryWF e) ∧
  s.htab_counter = s.entries.length ∧
  s.htab_counter ≤ elems_max + 1

/-! ## The plan estimation-error walker (`plan_error.c`)

C `double` values are embedded as real numbers.  The host engine's
instrumentation is modelled as the finalized counters the walker reads
after `InstrEndLoop` (whose close-out is idempotent by contract). -/

/-- The instrumentation counters of one plan node (or of one parallel
worker, or of a SubPlan's plan head): loops, produced tuples, secondary
tuples, the two filtered-tuple classes, and total time. -/
structure Instrumentation where
  nloops : ℝ
  ntuples : ℝ
  ntuples2 : ℝ
  nfiltered1 : ℝ
  nfiltered2 : ℝ
  total : ℝ

/-- The node fields `prediction_walker` reads: the planner's row estimate
and total cost, whether the node is a join variety
(`IsA NestLoop/HashJoin/MergeJoin`), the node's own instrumentation
(absent when not instrumented), the per-worker instrumentation array
(absent for serial nodes), and the instrumentation of the node's attached
SubPlans. -/
structure PlanNodeData where
  plan_rows : ℝ
  total_cost : ℝ
  isJoinNode : Bool
  instrument : Option Instrumentation
  worker_instrument : Option (List Instrumentation)
  subPlan : List Instrumentation

/-- A plan-state tree: node data plus the children visited by
`planstate_tree_walker` (left/right subtrees and the node-specific member
lists; SubPlans are *not* among the children — they hang off `subPlan`). -/
inductive PlanState where
  | node : PlanNodeData → List PlanState → PlanState

/-- `PlanEstimatorContext` (plan_error.h). -/
structure PlanEstimatorContext where
  totaltime : ℝ
  totalcost : ℝ
  nnodes : ℕ
  counter : ℕ
  avg_error : ℝ
  rms_error : ℝ
  twa_error : ℝ
  wca_error : ℝ
  blks_accessed : ℤ
  local_blks : ℤ
  max_jf_factor : ℝ
  max_lf_factor : ℝ
  worst_splan_factor : ℝ

/-- The `BufferUsage` fields read by `plan_error`. -/
structure BufferUsage where
  shared_blks_hit : ℤ
  shared_blks_read : ℤ
  temp_blks_read : ℤ
  temp_blks_written : ℤ
  local_blks_read : ℤ
  local_blks_written : ℤ
  local_blks_dirtied : ℤ

/-- Modelled from the spec: `clamp_row_est` is a PostgreSQL planner
primitive (not part of this repository's sources); per §4.2 step 6 it
clamps the row estimate to at least one. -/
noncomputable def clamp_row_est (nrows : ℝ) : ℝ := max 1 nrows

open Classical in
/-- The SubPlan analysis loop body of `prediction_walker` (plan_error.c
lines 54–96): skip uninstrumented loops, otherwise form
`cost_factor = (nloops / log(nloops+1)) · (subplan_time / totaltime)` and
keep the worst factor seen. -/
noncomputable def subplan_step (totaltime : ℝ) (worst : ℝ)
    (instr : Instrumentation) : ℝ :=
  if instr.nloops ≤ 0 ∨ totaltime ≤ 0 then worst
  else
    let loop_factor := instr.nloops / Real.log (instr.nloops + 1)
    let time_ratio := instr.total / totaltime
    let cost_factor := loop_factor * time_ratio
    if worst ≤ cost_factor ∨ cost_factor < 0 then cost_factor else worst

open Classical in
/-- The per-worker accumulation loop of `prediction_walker` (plan_error.c
lines 164–208) over `(wntuples, wnloops, real_rows)`: workers that never
started a loop are skipped; the compiled-out leaf filtered-tuple addition
(`#if 0`) is not part of the computation. -/
noncomputable def worker_fold (acc : ℝ × ℝ × ℝ) (instr : Instrumentation) :
    ℝ × ℝ × ℝ :=
  if instr.nloops ≤ 0 then acc
  else (acc.1 + instr.ntuples, acc.2.1 + instr.nloops,
        acc.2.2 + instr.ntuples / instr.nloops)

open Classical in
/-- Rows computation of `prediction_walker` (plan_error.c lines 130–240):
returns `(plan_rows, real_rows)` before clamping.  For a parallel node the
divisor applies the leader contribution (copied from
`get_parallel_divisor`) when `parallel_leader_participation` (`plp`) is on,
the workers contribute per-loop tuple counts, and the leader's remainder is
reconciled; for a serial node `real_rows = ntuples / nloops`.  The leaf
filtered-tuple additions present in the source under `#if 0` are compiled
out and hence absent. -/
noncomputable def node_rows (plp : Bool) (d : PlanNodeData)
    (instr : Instrumentation) : ℝ × ℝ :=
  match d.worker_instrument with
  | some ws =>
      let num_workers : ℝ := ws.length
      let divisor :=
        if plp ∧ 0 < 1 - 0.3 * num_workers
        then num_workers + (1 - 0.3 * num_workers)
        else num_workers
      let plan_rows := d.plan_rows * divisor
      let acc := ws.foldl worker_fold (0, 0, 0)
      let real_rows :=
        if 0 < instr.nloops - acc.2.1
        then acc.2.2 + (instr.ntuples - acc.1) / (instr.nloops - acc.2.1)
        else acc.2.2
      (plan_rows, real_rows)
  | none => (d.plan_rows, instr.ntuples / instr.nloops)

open Classical in
/-- The post-recursion body of `prediction_walker` (plan_error.c lines
40–332): SubPlan analysis, then — when the node is instrumented and was
actually executed with timing on — the node-error contributions, the
join-filter and leaf-filter hotspot factors, and the `nnodes` increment.
`tmp_counter` is the counter snapshot taken before recursing into the
children; it equals the context's counter exactly when the node is a
leaf. -/
noncomputable def node_update (plp : Bool) (tmp_counter : ℕ)
    (d : PlanNodeData) (ctx : PlanEstimatorContext) : PlanEstimatorContext :=
  let ctx := { ctx with worst_splan_factor :=
                 d.subPlan.foldl (subplan_step ctx.totaltime) ctx.worst_splan_factor }
  match d.instrument with
  | none => ctx
  | some instr =>
    if instr.nloops ≤ 0 ∨ instr.total = 0 then ctx
    else
      let rows := node_rows plp d instr
      let plan_rows := clamp_row_est rows.1
      let real_rows := if rows.2 ≤ 0 then 1 / instr.nloops else rows.2
      let node_error := |Real.log (real_rows / plan_rows)|
      let relative_time := instr.total / instr.nloops / ctx.totaltime
      let ctx := { ctx with
        avg_error := ctx.avg_error + node_error,
        rms_error := ctx.rms_error + node_error * node_error,
        twa_error := ctx.twa_error + node_error * relative_time }
      let ctx :=
        if (0 : ℝ) < ctx.totalcost then
          { ctx with wca_error :=
              ctx.wca_error + node_error * (d.total_cost / ctx.totalcost) }
        else ctx
      let ctx :=
        if d.isJoinNode then
          let jf_factor := (instr.nfiltered1 + instr.nfiltered2) / instr.nloops
          let jf_factor :=
            if 0 < jf_factor then jf_factor * (relative_time / real_rows)
            else jf_factor
          if ctx.max_jf_factor < jf_factor
          then { ctx with max_jf_factor := jf_factor } else ctx
        else ctx
      let ctx :=
        if tmp_counter = ctx.counter then
          let lf_factor := instr.nfiltered1 / instr.nloops
          let lf_factor :=
            if 0 < lf_factor then lf_factor * (relative_time / real_rows)
            else lf_factor
          if ctx.max_lf_factor < lf_factor
          then { ctx with max_lf_factor := lf_factor } else ctx
        else ctx
      { ctx with nnodes := ctx.nnodes + 1 }

mutual
/-- `prediction_walker` (plan_error.c): increment the counter, snapshot it,
recurse into the children via `planstate_tree_walker`, then process the
node. -/
noncomputable def prediction_walker (plp : Bool) :
    PlanState → PlanEstimatorContext → PlanEstimatorContext
  | .node d children, ctx =>
      let ctx := { ctx with counter := ctx.counter + 1 }
      let tmp_counter := ctx.counter
      let ctx := walker_children plp children ctx
      node_update plp tmp_counter d ctx

/-- Modelled from the spec: `planstate_tree_walker` (a host-engine
primitive, not part of this repository's sources) applies the walker to
each child of the node in order. -/
noncomputable def walker_children (plp : Bool) :
    List PlanState → PlanEstimatorContext → PlanEstimatorContext
  | [], ctx => ctx
  | t :: ts, ctx => walker_children plp ts (prediction_walker plp t ctx)
end

mutual
/-- Number of nodes of a plan tree. -/
def psize : PlanState → ℕ
  | .node _ children => 1 + csize children

/-- Total number of nodes of a list of plan trees. -/
def csize : List PlanState → ℕ
  | [] => 0
  | t :: ts => psize t + csize ts
end

/-- The context initialization of `plan_error` (plan_error.c lines
347–381): zero the accumulators and counters, record total time and cost,
and aggregate the buffer counters. -/
def init_context (totaltime totalcost : ℝ) (bu : BufferUsage) :
    PlanEstimatorContext :=
  { totaltime := totaltime
    totalcost := totalcost
    nnodes := 0
    counter := 0
    avg_error := 0
    rms_error := 0
    twa_error := 0
    wca_error := 0
    blks_accessed := bu.shared_blks_hit + bu.shared_blks_read +
                     bu.temp_blks_read + bu.temp_blks_written
    local_blks := bu.local_blks_read + bu.local_blks_written +
                  bu.local_blks_dirtied
    max_jf_factor := 0
    max_lf_factor := 0
    worst_splan_factor := 0 }

open Classical in
/-- `plan_error` (plan_error.c): initialize the context, walk the plan,
then average over the assessed nodes — or set all four error scalars to
`−1` when no node contributed.  `totaltime` is
`queryDesc->totaltime->total` and `totalcost` the root plan node's total
cost. -/
noncomputable def plan_error (plp : Bool) (pstate : PlanState)
    (totaltime totalcost : ℝ) (bu : BufferUsage) : PlanEstimatorContext :=
  let ctx := prediction_walker plp pstate (init_context totaltime totalcost bu)
  if 0 < ctx.nnodes then
    { ctx with avg_error := ctx.avg_error / (ctx.nnodes : ℝ)
               rms_error := Real.sqrt (ctx.rms_error / (ctx.nnodes : ℝ))
               twa_error := ctx.twa_error / (ctx.nnodes : ℝ)
               wca_error := ctx.wca_error / (ctx.nnodes : ℝ) }
  else
    { ctx with avg_error := -1, rms_error := -1, twa_error := -1,
               wca_error := -1 }

/-- `_explain_statement` (pg_track_optimizer.c line 312) converts the
execution's total wall-clock time to milliseconds as
`msec = totaltime->total * 1000.0` — i.e. `totaltime->total` itself is in
seconds. -/
def explain_statement_msec (totaltime_total : ℚ) : ℚ :=
  totaltime_total * 1000

/-! ## Theorems about the RStats component -/

@[simp] theorem ok_bind {ε α β : Type} (a : α) (f : α → Except ε β) :
    (Except.ok a : Except ε α) >>= f = f a := rfl

@[simp] theorem error_bind {ε α β : Type} (e : ε) (f : α → Except ε β) :
    (Except.error e : Except ε α) >>= f = .error e := rfl

@[simp] theorem pure_eq_ok {ε α : Type} (a : α) :
    (pure a : Except ε α) = .ok a := rfl

/-- **C8.** Starting from the canonical empty RStats and folding
`1.0, 2.0, 3.0, 4.0, 5.0` in order via `rstats_add_value` (the first add
delegating to single-value initialization, subsequent adds applying the
Welford step) yields exactly `count = 5`, `mean = 3`, `min = 1`, `max = 5`,
`m2 = 10`, hence `variance = 5/2`. -/
theorem rstats_fold_one_to_five :
    rstats_fold [1, 2, 3, 4, 5] = .ok ⟨5, 3, 10, 1, 5⟩ ∧
    rstats_variance ⟨5, 3, 10, 1, 5⟩ = 5 / 2 := by
  constructor
  · norm_num [rstats_fold, List.foldlM, rstats_set_empty, rstats_add_value,
      rstats_is_empty, rstats_init_internal, rstats_welford]
  · norm_num [rstats_variance]

/-- **C5, counterexample.** The textual round-trip is *not* the identity on
every RStats value: the value `⟨count 1, mean 0, m2 1, min 0, max 0⟩`
(which satisfies every §3 invariant and is reachable through
`rstats_recv`) prints `variance = 0` because `count ≤ 1`, so parsing
returns it with `m2 = 0 ≠ 1`. -/
theorem rstats_text_roundtrip_cex :
    rstats_in (rstats_out ⟨1, 0, 1, 0, 0⟩) = .ok ⟨1, 0, 0, 0, 0⟩ ∧
    (⟨1, 0, 0, 0, 0⟩ : RStats) ≠ ⟨1, 0, 1, 0, 0⟩ := by
  decide

/-- **C5, amended.** For every RStats `s` with non-negative count,
canonical zeros when empty, `min ≤ max` when non-empty, `m2 ≥ 0`, and
`m2 = 0` whenever `count ≤ 1` (the only values `rstats_out` can represent
exactly), the textual round-trip `rstats_in ∘ rstats_out` returns `s`
itself; and for every non-empty such `s` the binary
`rstats_recv ∘ rstats_send` round-trip reconstructs `s` exactly in all
five fields. -/
theorem rstats_roundtrip :
    ∀ s : RStats, 0 ≤ s.count →
    (s.count = 0 → s.mean = 0 ∧ s.m2 = 0 ∧ s.min = 0 ∧ s.max = 0) →
    (0 < s.count → s.min ≤ s.max) →
    0 ≤ s.m2 →
    (s.count ≤ 1 → s.m2 = 0) →
    rstats_in (rstats_out s) = .ok s ∧
    (s.count ≠ 0 → (rstats_send s).bind rstats_recv = .ok s) := by
  intro s hc hz hmm hm2 hm2z
  have hvar : 0 ≤ rstats_variance s := by
    unfold rstats_variance
    split
    · next h1 =>
      apply div_nonneg hm2
      have h2 : (0 : ℤ) ≤ s.count - 1 := by omega
      exact_mod_cast h2
    · exact le_rfl
  constructor
  · unfold rstats_in
    split_ifs with h1 h2 h3 h4 h5
    · exfalso; simp only [rstats_out] at h1; omega
    · exfalso; simp only [rstats_out] at h2; exact absurd h2 (not_lt.mpr hvar)
    · exfalso
      simp only [rstats_out] at h3
      exact absurd h3.2 (not_lt.mpr (hmm h3.1))
    · exfalso
      simp only [rstats_out] at h4
      obtain ⟨hc0, hnz⟩ := h4
      obtain ⟨e1, e2, e3, e4⟩ := hz hc0
      have hv0 : rstats_variance s = 0 := by
        unfold rstats_variance; rw [if_neg (by omega)]
      simp [e1, e3, e4, hv0] at hnz
    · simp only [rstats_out] at h5 ⊢
      have hne : ((s.count - 1 : ℤ) : ℚ) ≠ 0 := by
        exact_mod_cast (by omega : (s.count - 1 : ℤ) ≠ 0)
      have hm2eq : rstats_variance s * ((s.count - 1 : ℤ) : ℚ) = s.m2 := by
        unfold rstats_variance
        rw [if_pos h5, div_mul_cancel₀ _ hne]
      rw [hm2eq]
    · simp only [rstats_out] at h5 ⊢
      have hm2eq : s.m2 = 0 := hm2z (by omega)
      rw [← hm2eq]
  · intro hne
    unfold rstats_send
    split_ifs with h1
    · exact absurd h1.1 hne
    · show rstats_recv ⟨s.count, s.mean, s.m2, s.min, s.max⟩ = .ok s
      unfold rstats_recv
      split_ifs with h2
      · exact absurd h2.1 hne
      · rfl

/-- **C6, counterexample.** The binary input path accepts inputs the claim
says are rejected: a record with `count = 1` and `min = 5 > max = 1` and a
record with `count = 2` and negative `m2` (negative variance) are both
returned as-is by `rstats_recv`. -/
theorem rstats_recv_no_range_checks :
    rstats_recv ⟨1, 0, 0, 5, 1⟩ = .ok ⟨1, 0, 0, 5, 1⟩ ∧
    rstats_recv ⟨2, 0, -1, 0, 0⟩ = .ok ⟨2, 0, -1, 0, 0⟩ := by
  decide

/-- **C6, amended.** The textual input path rejects (with an
invalid-text-representation error) every input in the three violation
classes — `count = 0` with another field non-zero, `variance < 0`, and
`count > 0` with `min > max` — while the binary input path rejects only
the non-canonical empty state (with a corruption error) and accepts any
input whose count is non-zero without further validation. -/
theorem rstats_input_validation :
    (∀ t : RStatsText,
       (t.count = 0 ∧ (t.mean ≠ 0 ∨ t.min ≠ 0 ∨ t.max ≠ 0 ∨ t.variance ≠ 0)) ∨
       t.variance < 0 ∨ (0 < t.count ∧ t.max < t.min) →
       rstats_in t = .error .invalidTextRepresentation) ∧
    (∀ b : RStatsBinary,
       b.count = 0 ∧ (b.mean ≠ 0 ∨ b.m2 ≠ 0 ∨ b.min ≠ 0 ∨ b.max ≠ 0) →
       rstats_recv b = .error .dataCorrupted) ∧
    (∀ b : RStatsBinary, b.count ≠ 0 →
       rstats_recv b = .ok ⟨b.count, b.mean, b.m2, b.min, b.max⟩) := by
  refine ⟨?_, ?_, ?_⟩
  · intro t h
    unfold rstats_in
    split
    · rfl
    · split
      · rfl
      · split
        · rfl
        · split
          · rfl
          · next h1 h2 h3 h4 =>
            exfalso
            rcases h with h | h | h
            · exact h4 h
            · exact h2 h
            · exact h3 h
  · intro b h
    unfold rstats_recv
    rw [if_pos h]
  · intro b hne
    unfold rstats_recv
    rw [if_neg (by tauto)]

/-- **C6, witness.** The amended theorem applied at concrete inputs: the
textual path rejects `(count:1, min:2, max:1)` (min above max), the binary
path rejects a non-canonical empty record, and the binary path accepts a
non-empty record verbatim. -/
theorem rstats_input_validation_witness :
    rstats_in ⟨1, 0, 2, 1, 0⟩ = .error .invalidTextRepresentation ∧
    rstats_recv ⟨0, 1, 0, 0, 0⟩ = .error .dataCorrupted ∧
    rstats_recv ⟨3, 1, 2, 0, 9⟩ = .ok ⟨3, 1, 2, 0, 9⟩ :=
  ⟨rstats_input_validation.1 ⟨1, 0, 2, 1, 0⟩ (Or.inr (Or.inr (by decide))),
   rstats_input_validation.2.1 ⟨0, 1, 0, 0, 0⟩ (by decide),
   rstats_input_validation.2.2 ⟨3, 1, 2, 0, 9⟩ (by decide)⟩

/-- **C5, witness.** The amended round-trip theorem applied at the concrete
value `⟨count 2, mean 3, m2 8, min 1, max 5⟩`. -/
theorem rstats_roundtrip_witness :
    rstats_in (rstats_out ⟨2, 3, 8, 1, 5⟩) = .ok ⟨2, 3, 8, 1, 5⟩ ∧
    (rstats_send ⟨2, 3, 8, 1, 5⟩).bind rstats_recv = .ok ⟨2, 3, 8, 1, 5⟩ := by
  have h := rstats_roundtrip ⟨2, 3, 8, 1, 5⟩ (by decide) (by decide) (by decide)
    (by decide) (by decide)
  exact ⟨h.1, h.2 (by decide)⟩

/-! ## Theorems about the store and the on-disk format -/

/-- **C3.** The value `store_data` folds into the entry's `exec_time`
running statistic is `ctx->totaltime = queryDesc->totaltime->total`, the
execution's wall-clock time in *seconds* — not in milliseconds as the
entry's own field comment and the specification state.  Concretely, for an
execution whose total time is `0.01` (i.e. `10` milliseconds, as
`_explain_statement`'s own conversion shows), the folded value is `1/100`,
not `10`. -/
theorem store_exec_time_folds_seconds :
    (store_data 10 0 true ⟨1, 42⟩
        ⟨0, 0, 0, 0, 0, 0, 0, 0, 0, 0, 1, 1, 1/100⟩ Store.init).map
      (fun r => r.2.entries.map fun e => e.exec_time) =
      .ok [⟨1, 1/100, 0, 1/100, 1/100⟩] ∧
    explain_statement_msec (1/100) = 10 ∧ ((1/100 : ℚ) ≠ 10) := by
  refine ⟨?_, by norm_num [explain_statement_msec], by norm_num⟩
  norm_num [store_data, fold_metrics, fresh_entry, rstats_add_value,
    rstats_add_if_nonneg, rstats_is_empty, rstats_init_internal,
    rstats_set_empty, Store.init, UINT32_MAX, find_entry, Except.map]

/-- **C4, counterexample.** A successfully flushed file does *not* match
the layout the specification states: the magic constant written first is
`12354678 = 0x00BC8476`, not `0x00BC6FB6`, and a record's `Entry_raw` is
the in-memory entry verbatim — its query-text handle field keeps its live
(non-zero) arena pointer instead of being written as zero. -/
theorem flush_file_layout_cex :
    (flush_file (fun _ => 0) "PG" [(fresh_entry ⟨1, 7⟩ 5, "SELECT 1")]).head? =
      some (.u32 DATA_FILE_HEADER) ∧
    DATA_FILE_HEADER ≠ 0x00BC6FB6 ∧
    FileTok.entryRaw (fresh_entry ⟨1, 7⟩ 5) ∈
      flush_file (fun _ => 0) "PG" [(fresh_entry ⟨1, 7⟩ 5, "SELECT 1")] ∧
    (fresh_entry ⟨1, 7⟩ 5).query_ptr ≠ 0 ∧
    fresh_entry ⟨1, 7⟩ 5 ≠ entry_raw_spec (fresh_entry ⟨1, 7⟩ 5) := by
  refine ⟨?_, by decide, ?_, by decide, by decide⟩
  · simp [flush_file]
  · have hF : FileTok.entryRaw (fresh_entry ⟨1, 7⟩ 5) ∈
        [(fresh_entry ⟨1, 7⟩ 5, "SELECT 1")].flatMap
          (fun p => flush_record p.1 p.2) :=
      List.mem_flatMap.mpr
        ⟨(fresh_entry ⟨1, 7⟩ 5, "SELECT 1"), by simp, List.mem_cons_self _ _⟩
    show FileTok.entryRaw (fresh_entry ⟨1, 7⟩ 5) ∈
      ([.u32 DATA_FILE_HEADER, .u32 DATA_FORMAT_VERSION, .u32 "PG".length,
        .bytes "PG"]
        ++ ([(fresh_entry ⟨1, 7⟩ 5, "SELECT 1")].flatMap
              fun p => flush_record p.1 p.2)
        ++ [.entryRaw eof_entry, .u32 1]) ++ _
    exact List.mem_append_left _
      (List.mem_append_left _ (List.mem_append_right _ hF))

/-- **C4, amended.** Every file produced by a successful Flush starts with
the magic `u32` `12354678 = 0x00BC8476`, and every serialized record's
`Entry_raw` is the in-memory entry bytes written verbatim — the query-text
handle field keeps its live arena pointer (the loader overwrites the field
on restore), followed by the text length and the text itself. -/
theorem flush_file_layout (crc : List FileTok → ℕ) (ver : String)
    (entries : List (TrackerEntry × String)) :
    (flush_file crc ver entries).head? = some (.u32 DATA_FILE_HEADER) ∧
    DATA_FILE_HEADER = 0x00BC8476 ∧
    (∀ e text, (e, text) ∈ entries →
      flush_record e text = [.entryRaw e, .u32 text.length, .bytes text] ∧
      FileTok.entryRaw e ∈ flush_file crc ver entries) := by
  refine ⟨by simp [flush_file], by decide, ?_⟩
  intro e text hmem
  refine ⟨rfl, ?_⟩
  have hF : FileTok.entryRaw e ∈ entries.flatMap (fun p => flush_record p.1 p.2) :=
    List.mem_flatMap.mpr ⟨(e, text), hmem, List.mem_cons_self _ _⟩
  show FileTok.entryRaw e ∈
    ([.u32 DATA_FILE_HEADER, .u32 DATA_FORMAT_VERSION, .u32 ver.length,
      .bytes ver]
      ++ (entries.flatMap fun p => flush_record p.1 p.2)
      ++ [.entryRaw eof_entry, .u32 entries.length]) ++ _
  exact List.mem_append_left _
    (List.mem_append_left _ (List.mem_append_right _ hF))

/-! ### Store invariant lemmas -/

theorem rstats_add_if_nonneg_ok {r : RStats} (h : RStatsWF r) (v : ℚ) :
    ∃ r', rstats_add_if_nonneg v r = .ok r' ∧
      RStatsWF r' ∧ r'.count ≤ r.count + 1 := by
  unfold rstats_add_if_nonneg
  split
  · obtain ⟨r', h1, h2, h3⟩ := rstats_add_value_ok h v
    exact ⟨r', h1, h2, le_of_eq h3⟩
  · exact ⟨r, rfl, h, by omega⟩

theorem fold_metrics_ok (ctx : ExecMetrics) {e : TrackerEntry} (h : EntryWF e) :
    ∃ e', fold_metrics ctx e = .ok e' ∧ EntryWF e' ∧
      e'.nexecs = e.nexecs + 1 ∧
      e'.avg_error.count ≤ e.avg_error.count + 1 ∧
      e'.rms_error.count ≤ e.rms_error.count + 1 ∧
      e'.twa_error.count ≤ e.twa_error.count + 1 ∧
      e'.wca_error.count ≤ e.wca_error.count + 1 := by
  obtain ⟨hA, hR, hT, hW, hB, hL, hE, hJ, hS, hP, hN, hX⟩ := h
  obtain ⟨ra, ha1, ha2, ha3⟩ := rstats_add_if_nonneg_ok hA ctx.avg_error
  obtain ⟨rr, hr1, hr2, hr3⟩ := rstats_add_if_nonneg_ok hR ctx.rms_error
  obtain ⟨rt, ht1, ht2, ht3⟩ := rstats_add_if_nonneg_ok hT ctx.twa_error
  obtain ⟨rw', hw1, hw2, hw3⟩ := rstats_add_if_nonneg_ok hW ctx.wca_error
  obtain ⟨rb, hb1, hb2, hb3⟩ := rstats_add_value_ok hB (ctx.blks_accessed : ℚ)
  obtain ⟨rl, hl1, hl2, hl3⟩ := rstats_add_value_ok hL (ctx.local_blks : ℚ)
  obtain ⟨rj, hj1, hj2, hj3⟩ := rstats_add_value_ok hJ ctx.f_join_filter
  obtain ⟨rs, hs1, hs2, hs3⟩ := rstats_add_value_ok hS ctx.f_scan_filter
  obtain ⟨rp, hp1, hp2, hp3⟩ := rstats_add_value_ok hP ctx.f_worst_splan
  obtain ⟨rn, hn1, hn2, hn3⟩ := rstats_add_value_ok hN (ctx.njoins : ℚ)
  obtain ⟨re, he1, he2, he3⟩ := rstats_add_value_ok hE ctx.totaltime
  refine ⟨⟨e.key, ctx.nnodes, ctx.counter, ra, rr, rt, rw', rb, rl, re, rj,
           rs, rp, rn, e.nexecs + 1, e.query_ptr⟩, ?_, ?_, rfl, ha3, hr3, ht3, hw3⟩
  · unfold fold_metrics
    simp only [ha1, hr1, ht1, hw1, hb1, hl1, hj1, hs1, hp1, hn1, he1, ok_bind,
      pure_eq_ok]
  · exact ⟨ha2, hr2, ht2, hw2, hb2, hl2, he2, hj2, hs2, hp2, hn2,
           show (0 : ℤ) ≤ e.nexecs + 1 by omega⟩

theorem find_entry_mem {key : TrackerKey} :
    ∀ {es : List TrackerEntry} {e}, find_entry key es = some e → e ∈ es := by
  intro es
  induction es with
  | nil => intro e h; simp [find_entry] at h
  | cons a as ih =>
    intro e h
    unfold find_entry at h
    split at h
    · cases h; exact List.mem_cons_self _ _
    · exact List.mem_cons_of_mem _ (ih h)

theorem fresh_entry_wf (key : TrackerKey) (ptr : ℕ) :
    EntryWF (fresh_entry key ptr) := by
  refine ⟨?_, ?_, ?_, ?_, ?_, ?_, ?_, ?_, ?_, ?_, ?_, ?_⟩ <;>
    simp [fresh_entry, rstats_set_empty, RStatsWF]

theorem store_data_ok (elems_max : ℕ) (lme : ℚ) (forced : Bool)
    (key : TrackerKey) (ctx : ExecMetrics) {s : Store}
    (h : StoreInv elems_max s) :
    ∃ flag s', store_data elems_max lme forced key ctx s = .ok (flag, s') ∧
      StoreInv elems_max s' := by
  obtain ⟨hWF, hlen, hcap⟩ := h
  unfold store_data
  by_cases hgate : lme ≤ ctx.avg_error ∨ forced = true
  · rw [if_neg (not_not_intro hgate)]
    by_cases hguard : s.htab_counter = UINT32_MAX ∨ elems_max < s.htab_counter
    · rw [if_pos hguard]
      exact ⟨false, s, rfl, hWF, hlen, hcap⟩
    · rw [if_neg hguard]
      have hle : s.htab_counter ≤ elems_max := by
        push_neg at hguard
        omega
      cases hfind : find_entry key s.entries with
      | some e =>
          obtain ⟨e', hfm, hWF', -, -, -, -, -⟩ :=
            fold_metrics_ok ctx (hWF e (find_entry_mem hfind))
          refine ⟨true,
            { s with entries :=
                s.entries.map (fun o => if o.key = key then e' else o) },
            ?_, ?_, ?_, ?_⟩
          · simp only [hfind, hfm, ok_bind, pure_eq_ok]
          · intro x hx
            obtain ⟨o, ho, rfl⟩ := List.mem_map.mp hx
            split_ifs
            · exact hWF'
            · exact hWF o ho
          · simpa using hlen
          · exact hcap
      | none =>
          obtain ⟨e', hfm, hWF', -, -, -, -, -⟩ :=
            fold_metrics_ok ctx (fresh_entry_wf key s.arena_next)
          refine ⟨true,
            { s with entries := e' :: s.entries,
                     htab_counter := s.htab_counter + 1,
                     need_syncing := true,
                     arena_next := s.arena_next + 1 },
            ?_, ?_, ?_, ?_⟩
          · simp only [hfind, hfm, ok_bind, pure_eq_ok]
          · intro x hx
            rcases List.mem_cons.mp hx with rfl | hx
            · exact hWF'
            · exact hWF x hx
          · simp [hlen]
          · simp only
            omega
  · rw [if_pos hgate]
    exact ⟨false, s, rfl, hWF, hlen, hcap⟩

theorem run_upserts_ok (elems_max : ℕ) (lme : ℚ) (forced : Bool) :
    ∀ (inputs : List (TrackerKey × ExecMetrics)) {s : Store},
      StoreInv elems_max s →
      ∃ flags s',
        run_upserts elems_max lme forced inputs s = .ok (flags, s') ∧
        StoreInv elems_max s' := by
  intro inputs
  induction inputs with
  | nil => intro s h; exact ⟨[], s, rfl, h⟩
  | cons p rest ih =>
    obtain ⟨k, m⟩ := p
    intro s h
    obtain ⟨flag, s', h1, h2⟩ := store_data_ok elems_max lme forced k m h
    obtain ⟨flags, s'', h3, h4⟩ := ih h2
    refine ⟨flag :: flags, s'', ?_, h4⟩
    unfold run_upserts
    rw [h1]
    simp only [ok_bind]
    rw [h3]
    simp only [ok_bind, pure_eq_ok]

/-- **C4, witness.** The amended layout theorem applied to a file holding
one concrete entry. -/
theorem flush_file_layout_witness :
    (flush_file (fun _ => 1) "PG17" [(fresh_entry ⟨2, 9⟩ 3, "SELECT 2")]).head? =
      some (.u32 DATA_FILE_HEADER) ∧
    FileTok.entryRaw (fresh_entry ⟨2, 9⟩ 3) ∈
      flush_file (fun _ => 1) "PG17" [(fresh_entry ⟨2, 9⟩ 3, "SELECT 2")] := by
  have h := flush_file_layout (fun _ => 1) "PG17" [(fresh_entry ⟨2, 9⟩ 3, "SELECT 2")]
  exact ⟨h.1, (h.2.2 (fresh_entry ⟨2, 9⟩ 3) "SELECT 2" (by simp)).2⟩

theorem store_step1 :
    store_data 2 0 true ⟨1, 1⟩ zero_metrics Store.init =
      .ok (true, ⟨[zero_entry_at ⟨1, 1⟩ 1], 1, true, 2⟩) := by
  norm_num [store_data, fold_metrics, rstats_add_if_nonneg, rstats_add_value,
    rstats_is_empty, rstats_init_internal, rstats_set_empty, fresh_entry,
    find_entry, Store.init, UINT32_MAX, zero_metrics, zero_entry_at]

theorem store_step2 :
    store_data 2 0 true ⟨1, 2⟩ zero_metrics
        ⟨[zero_entry_at ⟨1, 1⟩ 1], 1, true, 2⟩ =
      .ok (true, ⟨[zero_entry_at ⟨1, 2⟩ 2, zero_entry_at ⟨1, 1⟩ 1],
                  2, true, 3⟩) := by
  norm_num [store_data, fold_metrics, rstats_add_if_nonneg, rstats_add_value,
    rstats_is_empty, rstats_init_internal, rstats_set_empty, fresh_entry,
    find_entry, UINT32_MAX, zero_metrics, zero_entry_at]

theorem store_step3 :
    store_data 2 0 true ⟨1, 3⟩ zero_metrics
        ⟨[zero_entry_at ⟨1, 2⟩ 2, zero_entry_at ⟨1, 1⟩ 1], 2, true, 3⟩ =
      .ok (true, ⟨[zero_entry_at ⟨1, 3⟩ 3, zero_entry_at ⟨1, 2⟩ 2,
                   zero_entry_at ⟨1, 1⟩ 1], 3, true, 4⟩) := by
  norm_num [store_data, fold_metrics, rstats_add_if_nonneg, rstats_add_value,
    rstats_is_empty, rstats_init_internal, rstats_set_empty, fresh_entry,
    find_entry, UINT32_MAX, zero_metrics, zero_entry_at]

theorem store_step4 :
    store_data 2 0 true ⟨1, 4⟩ zero_metrics
        ⟨[zero_entry_at ⟨1, 3⟩ 3, zero_entry_at ⟨1, 2⟩ 2,
          zero_entry_at ⟨1, 1⟩ 1], 3, true, 4⟩ =
      .ok (false, ⟨[zero_entry_at ⟨1, 3⟩ 3, zero_entry_at ⟨1, 2⟩ 2,
                    zero_entry_at ⟨1, 1⟩ 1], 3, true, 4⟩) := by
  norm_num [store_data, UINT32_MAX, zero_metrics]

/-- **C1, counterexample.** The capacity guard of `store_data` compares
with `>`, so with `capacity = hashtable_elements_max(1 KB) = 2` the third
distinct-key Upsert is *accepted*: all three flags come back `true`, the
store holds all three entries with `htab_counter = 3 > 2`, and
`status().free_slots` underflows to `2^32 − 1` instead of reporting `0`. -/
theorem store_capacity_cex :
    hashtable_elements_max 1 = 2 ∧
    (run_upserts (hashtable_elements_max 1) 0 true
        [(⟨1, 1⟩, zero_metrics), (⟨1, 2⟩, zero_metrics),
         (⟨1, 3⟩, zero_metrics)] Store.init).map
      (fun r => (r.1, r.2.htab_counter, r.2.entries.map (fun e => e.key))) =
      .ok ([true, true, true], 3, [⟨1, 3⟩, ⟨1, 2⟩, ⟨1, 1⟩]) ∧
    ¬(3 ≤ 2) ∧
    status_free_slots (hashtable_elements_max 1) 3 = 4294967295 := by
  refine ⟨by decide, ?_, by decide, by decide⟩
  have hem : hashtable_elements_max 1 = 2 := by decide
  rw [hem]
  simp only [run_upserts, store_step1, ok_bind, store_step2, store_step3,
    pure_eq_ok, Except.map]
  simp [zero_entry_at]

/-- **C1, amended.** For every sequence of Upserts against an empty store,
`htab_counter` equals the number of live entries and never exceeds
`capacity + 1` (the guard rejects only once the counter is *strictly
above* `hashtable_elements_max`).  With `capacity = 2`, Upserting four
distinct keys in order accepts the first three — leaving the store with
all three entries and `htab_counter = 3` — and rejects the fourth without
mutating state; `status().free_slots` then reads `2^32 − 1` by `uint32`
underflow. -/
theorem store_capacity :
    (∀ (elems_max : ℕ) (lme : ℚ) (forced : Bool)
       (inputs : List (TrackerKey × ExecMetrics)),
       ∃ flags s',
         run_upserts elems_max lme forced inputs Store.init = .ok (flags, s') ∧
         s'.htab_counter = s'.entries.length ∧
         s'.htab_counter ≤ elems_max + 1) ∧
    hashtable_elements_max 1 = 2 ∧
    (run_upserts (hashtable_elements_max 1) 0 true
        [(⟨1, 1⟩, zero_metrics), (⟨1, 2⟩, zero_metrics),
         (⟨1, 3⟩, zero_metrics), (⟨1, 4⟩, zero_metrics)] Store.init).map
      (fun r => (r.1, r.2.htab_counter, r.2.entries.map (fun e => e.key))) =
      .ok ([true, true, true, false], 3, [⟨1, 3⟩, ⟨1, 2⟩, ⟨1, 1⟩]) ∧
    status_free_slots (hashtable_elements_max 1) 3 = 4294967295 := by
  refine ⟨?_, by decide, ?_, by decide⟩
  · intro elems_max lme forced inputs
    obtain ⟨flags, s', h1, h2, h3, h4⟩ :=
      run_upserts_ok elems_max lme forced inputs
        (s := Store.init) ⟨by simp [Store.init], by simp [Store.init],
                           by simp [Store.init]⟩
    exact ⟨flags, s', h1, h3, h4⟩
  · have hem : hashtable_elements_max 1 = 2 := by decide
    rw [hem]
    simp only [run_upserts, store_step1, ok_bind, store_step2, store_step3,
      store_step4, pure_eq_ok, Except.map]
    simp [zero_entry_at]

/-- **C10.** Invariant of every live store entry, preserved by every
Upsert: the count of each of the four error running statistics
(`avg_error`, `rms_error`, `twa_error`, `wca_error`) stays at most
`nexecs` — `store_data` increments `nexecs` on every call that reaches the
fold step but folds an error metric only when the execution produced a
non-negative value for it. -/
theorem store_data_preserves_err_counts (elems_max : ℕ) (lme : ℚ)
    (forced : Bool) (key : TrackerKey) (ctx : ExecMetrics) (s : Store)
    (flag : Bool) (s' : Store)
    (h : ∀ e ∈ s.entries, EntryWF e ∧ ErrCountsInv e)
    (hrun : store_data elems_max lme forced key ctx s = .ok (flag, s')) :
    ∀ e ∈ s'.entries, EntryWF e ∧ ErrCountsInv e := by
  unfold store_data at hrun
  by_cases hgate : lme ≤ ctx.avg_error ∨ forced = true
  · rw [if_neg (not_not_intro hgate)] at hrun
    by_cases hguard : s.htab_counter = UINT32_MAX ∨ elems_max < s.htab_counter
    · rw [if_pos hguard] at hrun
      cases hrun
      exact h
    · rw [if_neg hguard] at hrun
      cases hfind : find_entry key s.entries with
      | some e =>
          have he := h e (find_entry_mem hfind)
          obtain ⟨e'', hfm, hWF'', hnex, hc1, hc2, hc3, hc4⟩ :=
            fold_metrics_ok ctx he.1
          simp only [hfind, hfm, ok_bind, pure_eq_ok] at hrun
          cases hrun
          intro x hx
          obtain ⟨o, ho, rfl⟩ := List.mem_map.mp hx
          split_ifs
          · obtain ⟨w1, w2, w3, w4⟩ := he.2
            exact ⟨hWF'', by rw [hnex]; omega, by rw [hnex]; omega,
                   by rw [hnex]; omega, by rw [hnex]; omega⟩
          · exact h o ho
      | none =>
          obtain ⟨e'', hfm, hWF'', hnex, hc1, hc2, hc3, hc4⟩ :=
            fold_metrics_ok ctx (fresh_entry_wf key s.arena_next)
          simp only [hfind, hfm, ok_bind, pure_eq_ok] at hrun
          cases hrun
          intro x hx
          rcases List.mem_cons.mp hx with rfl | hx
          · have hfc : (fresh_entry key s.arena_next).avg_error.count = 0 ∧
                (fresh_entry key s.arena_next).rms_error.count = 0 ∧
                (fresh_entry key s.arena_next).twa_error.count = 0 ∧
                (fresh_entry key s.arena_next).wca_error.count = 0 ∧
                (fresh_entry key s.arena_next).nexecs = 0 :=
              ⟨rfl, rfl, rfl, rfl, rfl⟩
            obtain ⟨f1, f2, f3, f4, f5⟩ := hfc
            refine ⟨hWF'', ?_, ?_, ?_, ?_⟩ <;> rw [hnex, f5] <;> omega
          · exact h x hx
  · rw [if_pos hgate] at hrun
    cases hrun
    exact h

/-- **C10, witness.** The invariant theorem applied to a concrete Upsert
of an all-zero execution into the empty store: the resulting single entry
is well-formed and its error-statistic counts are bounded by `nexecs`. -/
theorem store_data_preserves_err_counts_witness :
    EntryWF (zero_entry_at ⟨1, 1⟩ 1) ∧ ErrCountsInv (zero_entry_at ⟨1, 1⟩ 1) := by
  have happ := store_data_preserves_err_counts 2 0 true ⟨1, 1⟩ zero_metrics
    Store.init true ⟨[zero_entry_at ⟨1, 1⟩ 1], 1, true, 2⟩
    (by simp [Store.init]) store_step1
  exact happ (zero_entry_at ⟨1, 1⟩ 1) (by simp)

/-! ## Theorems about the plan walker -/

set_option maxHeartbeats 1000000 in
theorem node_update_counter (plp : Bool) (tc : ℕ) (d : PlanNodeData)
    (ctx : PlanEstimatorContext) :
    (node_update plp tc d ctx).counter = ctx.counter := by
  unfold node_update
  cases hd : d.instrument with
  | none => rfl
  | some instr =>
      dsimp only
      split_ifs <;> rfl

mutual
theorem prediction_walker_counter (plp : Bool) :
    ∀ (t : PlanState) (ctx : PlanEstimatorContext),
      (prediction_walker plp t ctx).counter = ctx.counter + psize t
  | .node d children, ctx => by
      have h1 := walker_children_counter plp children
        { ctx with counter := ctx.counter + 1 }
      rw [prediction_walker, node_update_counter, h1]
      simp only [psize]
      omega

theorem walker_children_counter (plp : Bool) :
    ∀ (ts : List PlanState) (ctx : PlanEstimatorContext),
      (walker_children plp ts ctx).counter = ctx.counter + csize ts
  | [], ctx => by simp [walker_children, csize]
  | t :: ts, ctx => by
      have h1 := prediction_walker_counter plp t ctx
      rw [walker_children, walker_children_counter plp ts, h1]
      simp only [csize]
      omega
end

/-- **C9.** For every finite plan tree the walker terminates (it is a
total function of the tree), visits every node exactly once — its counter
is incremented exactly once per visit and ends up equal to the node count
`psize` — and `plan_error` reports that count.  Stated for an arbitrary
starting context as well: the walker adds exactly `psize t` to the
counter. -/
theorem plan_error_visits_every_node_once (plp : Bool) (t : PlanState)
    (totaltime totalcost : ℝ) (bu : BufferUsage) :
    (plan_error plp t totaltime totalcost bu).counter = psize t ∧
    (∀ ctx : PlanEstimatorContext,
      (prediction_walker plp t ctx).counter = ctx.counter + psize t) := by
  constructor
  · simp only [plan_error]
    split_ifs <;>
      simp [prediction_walker_counter plp t, init_context]
  · exact prediction_walker_counter plp t

/-- **C7.** After the plan walk, if `nnodes > 0` then the four accumulated
error scalars are finalized as `avg_error/nnodes`,
`sqrt(rms_error/nnodes)`, `twa_error/nnodes` and `wca_error/nnodes`; if
`nnodes = 0` then all four error scalars equal `−1` while `counter` still
equals the number of visited nodes. -/
theorem plan_error_finalization (plp : Bool) (t : PlanState)
    (totaltime totalcost : ℝ) (bu : BufferUsage) :
    (0 < (prediction_walker plp t (init_context totaltime totalcost bu)).nnodes →
      (plan_error plp t totaltime totalcost bu).avg_error =
        (prediction_walker plp t (init_context totaltime totalcost bu)).avg_error /
        ((prediction_walker plp t (init_context totaltime totalcost bu)).nnodes : ℝ) ∧
      (plan_error plp t totaltime totalcost bu).rms_error =
        Real.sqrt
          ((prediction_walker plp t (init_context totaltime totalcost bu)).rms_error /
           ((prediction_walker plp t (init_context totaltime totalcost bu)).nnodes : ℝ)) ∧
      (plan_error plp t totaltime totalcost bu).twa_error =
        (prediction_walker plp t (init_context totaltime totalcost bu)).twa_error /
        ((prediction_walker plp t (init_context totaltime totalcost bu)).nnodes : ℝ) ∧
      (plan_error plp t totaltime totalcost bu).wca_error =
        (prediction_walker plp t (init_context totaltime totalcost bu)).wca_error /
        ((prediction_walker plp t (init_context totaltime totalcost bu)).nnodes : ℝ)) ∧
    ((prediction_walker plp t (init_context totaltime totalcost bu)).nnodes = 0 →
      (plan_error plp t totaltime totalcost bu).avg_error = -1 ∧
      (plan_error plp t totaltime totalcost bu).rms_error = -1 ∧
      (plan_error plp t totaltime totalcost bu).twa_error = -1 ∧
      (plan_error plp t totaltime totalcost bu).wca_error = -1 ∧
      (plan_error plp t totaltime totalcost bu).counter =
        (prediction_walker plp t (init_context totaltime totalcost bu)).counter) := by
  simp only [plan_error]
  split_ifs with h
  · refine ⟨fun _ => ⟨rfl, rfl, rfl, rfl⟩, fun h0 => absurd h0 (by omega)⟩
  · exact ⟨fun hpos => absurd hpos h, fun _ => ⟨rfl, rfl, rfl, rfl, rfl⟩⟩

/-- **C7, witness.** The finalization theorem applied to the S4 scenario:
a plan with a single non-instrumented node.  The walker increments the
counter to `1`, never contributes to `nnodes`, and all four error scalars
come back `−1`. -/
theorem plan_error_finalization_witness :
    (plan_error true (.node ⟨100, 100, false, none, none, []⟩ [])
        1 100 ⟨0, 0, 0, 0, 0, 0, 0⟩).avg_error = -1 ∧
    (plan_error true (.node ⟨100, 100, false, none, none, []⟩ [])
        1 100 ⟨0, 0, 0, 0, 0, 0, 0⟩).rms_error = -1 ∧
    (plan_error true (.node ⟨100, 100, false, none, none, []⟩ [])
        1 100 ⟨0, 0, 0, 0, 0, 0, 0⟩).twa_error = -1 ∧
    (plan_error true (.node ⟨100, 100, false, none, none, []⟩ [])
        1 100 ⟨0, 0, 0, 0, 0, 0, 0⟩).wca_error = -1 ∧
    (plan_error true (.node ⟨100, 100, false, none, none, []⟩ [])
        1 100 ⟨0, 0, 0, 0, 0, 0, 0⟩).counter = 1 := by
  have hn : (prediction_walker true (.node ⟨100, 100, false, none, none, []⟩ [])
      (init_context 1 100 ⟨0, 0, 0, 0, 0, 0, 0⟩)).nnodes = 0 := by
    simp [prediction_walker, walker_children, node_update, init_context]
  have hc : (prediction_walker true (.node ⟨100, 100, false, none, none, []⟩ [])
      (init_context 1 100 ⟨0, 0, 0, 0, 0, 0, 0⟩)).counter = 1 := by
    simp [prediction_walker, walker_children, node_update, init_context]
  obtain ⟨h1, h2, h3, h4, h5⟩ :=
    (plan_error_finalization true (.node ⟨100, 100, false, none, none, []⟩ [])
      1 100 ⟨0, 0, 0, 0, 0, 0, 0⟩).2 hn
  exact ⟨h1, h2, h3, h4, h5.trans hc⟩

theorem leaf_walker_avg (nf1 nf2 nt2 : ℝ) :
    (plan_error true
        (.node ⟨100, 100, false, some ⟨1, 10, nt2, nf1, nf2, 1/100⟩, none, []⟩ [])
        (1/100) 100 ⟨0, 0, 0, 0, 0, 0, 0⟩).avg_error = Real.log 10 := by
  simp only [plan_error, prediction_walker, walker_children, node_update,
    node_rows, clamp_row_est, init_context, List.foldl]
  norm_num [apply_ite PlanEstimatorContext.avg_error,
    apply_ite PlanEstimatorContext.nnodes, ite_self]
  rw [show (1/10 : ℝ) = (10 : ℝ)⁻¹ by norm_num, Real.log_inv, abs_neg,
    abs_of_nonneg (Real.log_nonneg (by norm_num))]

theorem leaf_walker_lf :
    (plan_error true
        (.node ⟨100, 100, false, some ⟨1, 10, 0, 90, 0, 1/100⟩, none, []⟩ [])
        (1/100) 100 ⟨0, 0, 0, 0, 0, 0, 0⟩).max_lf_factor = 9 := by
  simp only [plan_error, prediction_walker, walker_children, node_update,
    node_rows, clamp_row_est, init_context, List.foldl]
  norm_num

/-- **C2, counterexample.** On the single serial leaf with
`plan_rows = 100`, `ntuples = 10`, `nloops = 1`, `nfiltered1 = 90`,
`total_time = 0.01`, `totaltime = 0.01` the walker does *not* add the
filtered tuples to `real_rows` (that code is compiled out under `#if 0`):
`avg_error = |ln(10/100)| = ln 10 ≠ 0` and
`max_scan_filter_factor = 90 · (1/10) = 9 ≠ 0.9`. -/
theorem serial_leaf_filter_cex :
    (plan_error true
        (.node ⟨100, 100, false, some ⟨1, 10, 0, 90, 0, 1/100⟩, none, []⟩ [])
        (1/100) 100 ⟨0, 0, 0, 0, 0, 0, 0⟩).avg_error = Real.log 10 ∧
    Real.log 10 ≠ 0 ∧
    (plan_error true
        (.node ⟨100, 100, false, some ⟨1, 10, 0, 90, 0, 1/100⟩, none, []⟩ [])
        (1/100) 100 ⟨0, 0, 0, 0, 0, 0, 0⟩).max_lf_factor = 9 ∧
    (9 : ℝ) ≠ 9/10 :=
  ⟨leaf_walker_avg 90 0 0,
   ne_of_gt (Real.log_pos (by norm_num)),
   leaf_walker_lf, by norm_num⟩

/-- **C2, amended.** In the serial case the walker computes
`real_rows = ntuples / nloops` with *no* leaf filtered-tuple addition (the
`nfiltered1 + nfiltered2 + ntuples2` additions are compiled out under
`#if 0`): for every value of the filtered-tuple counters, the single
serial leaf with `plan_rows = 100`, `ntuples = 10`, `nloops = 1`,
`total_time = 0.01`, `totaltime = 0.01` produces `real_rows = 10` and
`avg_error = |ln(10/100)| = ln 10`; with `nfiltered1 = 90` the
scan-filter hotspot evaluates to
`max_scan_filter_factor = (90/1) · (relative_time / real_rows) = 9`. -/
theorem serial_leaf_rows (nf1 nf2 nt2 : ℝ) :
    (plan_error true
        (.node ⟨100, 100, false, some ⟨1, 10, nt2, nf1, nf2, 1/100⟩, none, []⟩ [])
        (1/100) 100 ⟨0, 0, 0, 0, 0, 0, 0⟩).avg_error = Real.log 10 ∧
    (plan_error true
        (.node ⟨100, 100, false, some ⟨1, 10, 0, 90, 0, 1/100⟩, none, []⟩ [])
        (1/100) 100 ⟨0, 0, 0, 0, 0, 0, 0⟩).max_lf_factor = 9 :=
  ⟨leaf_walker_avg nf1 nf2 nt2, leaf_walker_lf⟩

end PgTrackOptimizer
